import Mathlib

/-!
Verification development for the news ingestion / deduplication / caching
core of the `ainews` repository.

The TypeScript sources are shallowly embedded as executable Lean
definitions:

* `src/services/newsStorage.ts` — `createArticleId`,
  `mergeArticlesWithDeduplication` (the Deduplication & Merge Engine);
* `src/services/newsCollector.ts` — `getStoredNews` (pagination);
* `src/services/newsService.ts` — `getNewsFromCache` (clamping);
* `src/services/requestCacheService.ts` — `normalizeParams`,
  `generateCacheKey`, `get`, `set` (Request-Level Response Cache);
* `src/cache/middleware/requestCacheMiddleware.ts` —
  `createRequestCacheMiddleware`;
* `src/services/audioService.ts` — `generateAudioOnDemand`
  (Derived-Artifact Generation Cache), both as a sequential function and
  as an interleaving machine for two concurrent callers.

JavaScript timestamps (`Date` values, millisecond epochs) are modelled as
`Int`.  JavaScript's stable `Array.prototype.sort` with a consistent
comparator is modelled by `List.insertionSort` (stable, structurally
recursive, hence kernel-computable).
-/

namespace AiNews

/-! ### JavaScript string helpers -/

/-- UTF-8 encoding of one character, as the list of its bytes.
Models what `Buffer.from(url)` does to each code point. -/
def utf8EncodeChar (c : Char) : List Nat :=
  let n := c.toNat
  if n < 0x80 then [n]
  else if n < 0x800 then
    [0xC0 + n / 0x40, 0x80 + n % 0x40]
  else if n < 0x10000 then
    [0xE0 + n / 0x1000, 0x80 + (n / 0x40) % 0x40, 0x80 + n % 0x40]
  else
    [0xF0 + n / 0x40000, 0x80 + (n / 0x1000) % 0x40,
     0x80 + (n / 0x40) % 0x40, 0x80 + n % 0x40]

/-- UTF-8 bytes of a string (model of `Buffer.from(s)`). -/
def utf8Bytes (s : String) : List Nat :=
  s.data.flatMap utf8EncodeChar

/-- The standard base64 alphabet, indexed 0–63. -/
def base64Alphabet : List Char :=
  "ABCDEFGHIJKLMNOPQRSTUVWXYZabcdefghijklmnopqrstuvwxyz0123456789+/".data

/-- Character for a 6-bit group. -/
def base64Char (n : Nat) : Char :=
  base64Alphabet.getD n '?'

/-- Standard base64 encoding of a byte list, with `=` padding
(model of `Buffer.prototype.toString with base64 target`). -/
def base64Encode : List Nat → List Char
  | [] => []
  | [b1] =>
    [base64Char (b1 / 4), base64Char (b1 % 4 * 16), '=', '=']
  | [b1, b2] =>
    [base64Char (b1 / 4), base64Char (b1 % 4 * 16 + b2 / 16),
     base64Char (b2 % 16 * 4), '=']
  | b1 :: b2 :: b3 :: rest =>
    base64Char (b1 / 4) :: base64Char (b1 % 4 * 16 + b2 / 16) ::
    base64Char (b2 % 16 * 4 + b3 / 64) :: base64Char (b3 % 64) ::
    base64Encode rest

/-- ASCII alphanumeric test, the character class kept by the
`[^a-zA-Z0-9]` strip in `createArticleId`. -/
def isAsciiAlnum (c : Char) : Bool :=
  (('A' ≤ c && c ≤ 'Z') || ('a' ≤ c && c ≤ 'z') || ('0' ≤ c && c ≤ '9'))

/-! ### newsStorage.ts — identity assignment and the merge engine -/

/-- `createArticleId` from `newsStorage.ts`: base64 of the URL bytes,
stripped to alphanumerics, truncated to 20 characters, prefixed with
the (unnormalized) category. -/
def createArticleId (url : String) (category : String) : String :=
  let urlHash := String.mk (((base64Encode (utf8Bytes url)).filter isAsciiAlnum).take 20)
  "news_" ++ category ++ "_" ++ urlHash

/-- `StoredNewsItem` from `newsCollector.ts`; `collectedAt` is the
parsed timestamp in epoch milliseconds. -/
structure StoredNewsItem where
  id : String
  title : String
  summary : String
  url : String
  publishedAt : String
  imageUrl : Option String := none
  audioPath : Option String := none
  category : String
  collectedAt : Int
deriving DecidableEq, Repr

/-- The 24-hour retention window of the merge engine, in milliseconds. -/
def retentionMs : Int := 24 * 60 * 60 * 1000

/-- Result record of `mergeArticlesWithDeduplication`. -/
structure MergeResult where
  mergedArticles : List StoredNewsItem
  newCount : Nat
  duplicateCount : Nat
  removedCount : Nat
deriving DecidableEq, Repr

/-- The rewrite applied to a kept incoming candidate: its `id` is
replaced by the consistent URL-derived id; all other fields persist. -/
def newify (category : String) (n : StoredNewsItem) : StoredNewsItem :=
  { n with id := createArticleId n.url category }

/-- Membership of a URL in the `existingByUrl` map built from the whole
existing set (stale entries included, as in the source). -/
def urlKnown (existingArticles : List StoredNewsItem) (u : String) : Bool :=
  existingArticles.any (fun e => e.url == u)

/-- Comparator of the final `mergedArticles.sort`: newest `collectedAt`
first.  JavaScript's sort is stable, so a stable insertion sort with the
same total preorder produces the same list. -/
def recentFirst (a b : StoredNewsItem) : Prop :=
  b.collectedAt ≤ a.collectedAt

instance : DecidableRel recentFirst :=
  fun a b => Int.decLe b.collectedAt a.collectedAt

/-- `mergeArticlesWithDeduplication` from `newsStorage.ts`, with `now`
(the value of `Date.now()`) made explicit.

Faithful to the source: the valid existing articles are *not* part of
`mergedArticles` (the spread of `validExistingArticles` is commented out
in the source), incoming candidates are deduplicated only against the
existing set, and their `collectedAt` is not re-stamped or filtered. -/
def mergeArticlesWithDeduplication (now : Int)
    (existingArticles newArticles : List StoredNewsItem)
    (category : String) : MergeResult :=
  let validExistingArticles :=
    existingArticles.filter (fun a => now - retentionMs < a.collectedAt)
  let removedCount := existingArticles.length - validExistingArticles.length
  let genuinelyNewArticles :=
    (newArticles.filter (fun n => !(urlKnown existingArticles n.url))).map
      (newify category)
  let duplicateCount :=
    newArticles.countP (fun n => urlKnown existingArticles n.url)
  let mergedArticles := List.insertionSort recentFirst genuinelyNewArticles
  { mergedArticles,
    newCount := genuinelyNewArticles.length,
    duplicateCount,
    removedCount }

/-- Characterisation of merge output membership: everything in
`mergedArticles` is a kept incoming candidate with its id rewritten. -/
theorem mem_merged_iff (now : Int) (ex new : List StoredNewsItem)
    (cat : String) (a : StoredNewsItem) :
    a ∈ (mergeArticlesWithDeduplication now ex new cat).mergedArticles ↔
      ∃ n, n ∈ new ∧ urlKnown ex n.url = false ∧ a = newify cat n := by
  unfold mergeArticlesWithDeduplication
  simp only [List.mem_insertionSort, List.mem_map, List.mem_filter,
    Bool.not_eq_true']
  constructor
  · rintro ⟨n, ⟨hn, hk⟩, rfl⟩
    exact ⟨n, hn, hk, rfl⟩
  · rintro ⟨n, hn, hk, rfl⟩
    exact ⟨n, ⟨hn, hk⟩, rfl⟩

/-- The merge output is a permutation of the kept incoming candidates
with rewritten ids (the sort step only reorders). -/
theorem merged_perm (now : Int) (ex new : List StoredNewsItem) (cat : String) :
    (mergeArticlesWithDeduplication now ex new cat).mergedArticles.Perm
      ((new.filter (fun n => !(urlKnown ex n.url))).map (newify cat)) := by
  unfold mergeArticlesWithDeduplication
  exact List.perm_insertionSort _ _

/-! ### Concrete inputs for the merge scenarios -/

/-- Reference `Date.now()` value for the concrete scenarios (ms). -/
def t0 : Int := 1700000000000

def catAI : String := "ai"

def urlA1 : String := "https://a/1"

def urlA2 : String := "https://a/2"

/-- Existing entity `E1` of the specification scenario: collected two
hours before `t0`, hence well inside the 24-hour retention window. -/
def e1 : StoredNewsItem :=
  { id := "E1", title := "existing one", summary := "se",
    url := urlA1, publishedAt := "2023-11-13", category := catAI,
    collectedAt := t0 - 7200000 }

/-- Incoming candidate with the same URL as `E1`. -/
def cand1 : StoredNewsItem :=
  { id := "prior1", title := "incoming one", summary := "s1",
    url := urlA1, publishedAt := "2023-11-14", category := catAI,
    collectedAt := t0 }

/-- Incoming candidate with a fresh URL. -/
def cand2 : StoredNewsItem :=
  { id := "prior2", title := "incoming two", summary := "s2",
    url := urlA2, publishedAt := "2023-11-14", category := catAI,
    collectedAt := t0 }

/-- The merge call of the specification scenario behind C1. -/
def c1run : MergeResult :=
  mergeArticlesWithDeduplication t0 [e1] [cand1, cand2] catAI

/-- C1: the specification scenario expects `merged` to hold 2 entities
with `E1` byte-identical in the output.  The code instead returns only
the single genuinely new entity: the spread of `validExistingArticles`
into `mergedArticles` is commented out in `newsStorage.ts`, so every
retention-valid existing entity is dropped from the merge output (while
the dead `validExistingByUrl` map and the function's own doc comment
still describe a real merge).  Counts match the spec; the merged set
does not. -/
theorem merge_scenario_drops_valid_existing :
    c1run.mergedArticles.length = 1 ∧ e1 ∉ c1run.mergedArticles ∧
      c1run.newCount = 1 ∧ c1run.duplicateCount = 1 ∧
      c1run.removedCount = 0 := by decide

/-- Two incoming candidates sharing one URL (titles differ). -/
def dupCandA : StoredNewsItem :=
  { id := "pa", title := "dup a", summary := "sa",
    url := "https://dup/x", publishedAt := "2023-11-14", category := catAI,
    collectedAt := t0 }

def dupCandB : StoredNewsItem :=
  { id := "pb", title := "dup b", summary := "sb",
    url := "https://dup/x", publishedAt := "2023-11-14", category := catAI,
    collectedAt := t0 }

/-- Merge of a batch with an internal duplicate URL against an empty
existing set. -/
def c2run : MergeResult :=
  mergeArticlesWithDeduplication t0 [] [dupCandA, dupCandB] catAI

/-- C2 counterexample: a batch containing two candidates with the same
`sourceUrl` produces a merged set with two entities carrying the same
derived id — duplicate URLs within one incoming batch are not
deduplicated against each other. -/
theorem merge_duplicate_urls_same_id :
    c2run.mergedArticles.length = 2 ∧
      ¬ (c2run.mergedArticles.map (fun a => a.id)).Nodup := by decide

/-- C2 amended: deduplication happens only against the existing set.
The merged ids are free of duplicates exactly when the kept candidates'
derived ids are pairwise distinct; nothing deduplicates inside the
batch itself. -/
theorem merge_nodup_ids_iff (now : Int) (ex new : List StoredNewsItem)
    (cat : String) :
    ((mergeArticlesWithDeduplication now ex new cat).mergedArticles.map
        (fun a => a.id)).Nodup ↔
      ((new.filter (fun n => !(urlKnown ex n.url))).map
        (fun n => createArticleId n.url cat)).Nodup := by
  have hperm := (merged_perm now ex new cat).map (fun a => a.id)
  have hmap :
      ((new.filter (fun n => !(urlKnown ex n.url))).map (newify cat)).map
          (fun a => a.id) =
        (new.filter (fun n => !(urlKnown ex n.url))).map
          (fun n => createArticleId n.url cat) := by
    rw [List.map_map]; rfl
  rw [hmap] at hperm
  exact hperm.nodup_iff

/-- Incoming candidate whose `collectedAt` lies 30 hours before `t0`,
outside the 24-hour retention window. -/
def staleCand : StoredNewsItem :=
  { id := "ps", title := "stale inc", summary := "ss",
    url := "https://a/stale", publishedAt := "2023-11-12", category := catAI,
    collectedAt := t0 - 108000000 }

/-- Merge of a stale incoming candidate against an empty existing set. -/
def c4run : MergeResult :=
  mergeArticlesWithDeduplication t0 [] [staleCand] catAI

/-- C4 counterexample: a stale entity arriving in the incoming batch is
emitted unchanged — the merge retention filter is applied to the
existing set only, and incoming timestamps are not re-stamped. -/
theorem merge_emits_stale_incoming :
    c4run.mergedArticles.map (fun a => a.collectedAt) = [t0 - 108000000] ∧
      t0 - 108000000 < t0 - retentionMs := by decide

/-- C4 amended: every entity in the merge output originates from the
incoming batch (with only its id rewritten); in particular no entity of
the existing set — stale or valid — ever appears in the output, so the
retention invariant holds for entities passed in via the existing set,
and only for those. -/
theorem merge_output_from_incoming_only (now : Int)
    (ex new : List StoredNewsItem) (cat : String) (a : StoredNewsItem)
    (h : a ∈ (mergeArticlesWithDeduplication now ex new cat).mergedArticles) :
    ∃ n, n ∈ new ∧ a = newify cat n := by
  obtain ⟨n, hn, _, rfl⟩ := (mem_merged_iff now ex new cat a).mp h
  exact ⟨n, hn, rfl⟩

/-- Witness for `merge_output_from_incoming_only` at the stale-incoming
run. -/
theorem merge_output_from_incoming_only_witness :
    ∃ n, n ∈ [staleCand] ∧ newify catAI staleCand = newify catAI n :=
  merge_output_from_incoming_only t0 [] [staleCand] catAI
    (newify catAI staleCand) (by decide)

/-- First call of the repeated-merge experiment: the incoming candidate
duplicates `E1`. -/
def c5r1 : MergeResult :=
  mergeArticlesWithDeduplication t0 [e1] [cand1] catAI

/-- Second call, fed the first call's merged output as existing set and
the same incoming batch. -/
def c5r2 : MergeResult :=
  mergeArticlesWithDeduplication t0 c5r1.mergedArticles [cand1] catAI

/-- C5: running the merge twice with the same singleton incoming batch
should give `newCount = 0` and `duplicateCount = 1` the second time.
Because the first call dropped the valid existing article `E1` from its
output, the second call no longer sees `E1`'s URL and re-ingests the
candidate: `newCount = 1`, `duplicateCount = 0`. -/
theorem merge_not_idempotent_eval :
    c5r1.newCount = 0 ∧ c5r1.duplicateCount = 1 ∧
      c5r2.newCount = 1 ∧ c5r2.duplicateCount = 0 := by decide

/-- Formalisation of the id shape asserted by the specification (C6):
after the category-derived tag, at least 16 characters of a hex digest.
Stated from the spec's words, to be tested against the source's ids. -/
def specCryptoIdForm (id : String) (categoryTag : String) : Bool :=
  categoryTag.data.isPrefixOf id.data &&
    (let suffix := id.data.drop categoryTag.data.length
     decide (16 ≤ suffix.length) &&
       suffix.all (fun c => ('0' ≤ c && c ≤ '9') || ('a' ≤ c && c ≤ 'f')))

/-- Merge of the single fresh candidate `cand1`, used to inspect the id
written into the merged output. -/
def c6run : MergeResult :=
  mergeArticlesWithDeduplication t0 [] [cand1] catAI

/-- C6 counterexample: the id the merge writes for URL `https://a/1` is
`news_ai_aHR0cHM6Ly9hLzE` — a 15-character truncated base64 of the URL,
not ≥16 hex characters of a cryptographic digest (the sha256-based ids
assigned in `newsCollector.ts` are overwritten by this rewrite). -/
theorem merge_id_not_crypto_hex :
    c6run.mergedArticles.map (fun a => a.id) = ["news_ai_aHR0cHM6Ly9hLzE"] ∧
      specCryptoIdForm "news_ai_aHR0cHM6Ly9hLzE" "news_ai_" = false := by
  decide

/-- C6 amended: every id in the merge output equals
`createArticleId sourceUrl category` — deterministic in
`(category, sourceUrl)`, built as `news_` ++ category ++ `_` ++ the
first 20 alphanumeric characters of base64(sourceUrl). -/
theorem merge_ids_are_base64_derived (now : Int)
    (ex new : List StoredNewsItem) (cat : String) (a : StoredNewsItem)
    (h : a ∈ (mergeArticlesWithDeduplication now ex new cat).mergedArticles) :
    a.id = createArticleId a.url cat := by
  obtain ⟨n, _, _, rfl⟩ := (mem_merged_iff now ex new cat a).mp h
  rfl

/-- Witness for `merge_ids_are_base64_derived` at the `cand1` run. -/
theorem merge_ids_are_base64_derived_witness :
    (newify catAI cand1).id = createArticleId (newify catAI cand1).url catAI :=
  merge_ids_are_base64_derived t0 [] [cand1] catAI
    (newify catAI cand1) (by decide)

/-! ### newsCollector.ts `getStoredNews` and newsService.ts `getNewsFromCache` -/

/-- `Math.ceil(a / b)` for integers (the case `b = 0`, which JavaScript
maps to `Infinity`, is mapped to 0; all call sites reached from
`getNewsFromCache` pass `1 ≤ b`). -/
def jsCeilDiv (a b : Int) : Int :=
  if b = 0 then 0 else -((-a).fdiv b)

/-- `Array.prototype.slice(s, e)` with JavaScript's index clamping. -/
def jsSlice {α : Type} (l : List α) (s e : Int) : List α :=
  let len : Int := l.length
  let s1 := if s < 0 then max (len + s) 0 else min s len
  let e1 := if e < 0 then max (len + e) 0 else min e len
  (l.drop s1.toNat).take (e1.toNat - s1.toNat)

/-- Pagination record returned by `getStoredNews`. -/
structure PaginationInfo where
  page : Int
  pageSize : Int
  totalResults : Int
  totalPages : Int
  hasNextPage : Bool
  hasPreviousPage : Bool
deriving DecidableEq, Repr

/-- Result of `getStoredNews`. -/
structure StoredNewsPage where
  articles : List StoredNewsItem
  pagination : PaginationInfo
deriving DecidableEq, Repr

/-- `getStoredNews` from `newsCollector.ts`.  The in-memory store (or
the file fallback) for the normalized category is passed in as
`stored`; pagination arithmetic is modelled exactly. -/
def getStoredNews (stored : List StoredNewsItem) (page pageSize : Int) :
    StoredNewsPage :=
  let totalResults : Int := stored.length
  let totalPages := jsCeilDiv totalResults pageSize
  let startIndex := (page - 1) * pageSize
  let endIndex := startIndex + pageSize
  { articles := jsSlice stored startIndex endIndex,
    pagination :=
      { page, pageSize, totalResults, totalPages,
        hasNextPage := decide (page < totalPages),
        hasPreviousPage := decide (1 < page) } }

/-- Public `NewsItem` shape of `newsService.ts`. -/
structure NewsItem where
  id : String
  title : String
  summary : String
  url : String
  publishedAt : String
  imageUrl : Option String
deriving DecidableEq, Repr

/-- `convertStoredToNewsItem` from `newsService.ts`. -/
def convertStoredToNewsItem (s : StoredNewsItem) : NewsItem :=
  { id := s.id, title := s.title, summary := s.summary, url := s.url,
    publishedAt := s.publishedAt, imageUrl := s.imageUrl }

/-- Response shape of `getNewsFromCache`. -/
structure PaginatedNewsResponse where
  articles : List NewsItem
  pagination : PaginationInfo
deriving DecidableEq, Repr

/-- `getNewsFromCache` from `newsService.ts`: clamps `page` to `≥ 1`
and `pageSize` into `[1, 20]`, then delegates to `getStoredNews` for
the (already normalized) category's store. -/
def getNewsFromCache (stored : List StoredNewsItem) (page pageSize : Int) :
    PaginatedNewsResponse :=
  let validatedPage := max 1 page
  let validatedPageSize := min (max 1 pageSize) 20
  let result := getStoredNews stored validatedPage validatedPageSize
  { articles := result.articles.map convertStoredToNewsItem,
    pagination := result.pagination }

/-- Length bound for a JavaScript slice starting at a non-negative
index. -/
theorem jsSlice_length_le {α : Type} (l : List α) (s e : Int)
    (hs : 0 ≤ s) (he : 0 ≤ e) : (jsSlice l s e).length ≤ (e - s).toNat := by
  unfold jsSlice
  simp only [List.length_take, List.length_drop, Int.max_def, Int.min_def]
  split_ifs <;> omega

/-- C10: for every store and every (possibly out-of-range) `page` and
`pageSize`, `getNewsFromCache` silently clamps: the effective page is
`max 1 page`, the effective page size is `min (max 1 pageSize) 20`, at
most that many articles are returned, and `hasPreviousPage` holds
exactly when the effective page exceeds 1. -/
theorem getNewsFromCache_clamps_pagination (stored : List StoredNewsItem)
    (page pageSize : Int) :
    (getNewsFromCache stored page pageSize).pagination.page = max 1 page ∧
    (getNewsFromCache stored page pageSize).pagination.pageSize =
      min (max 1 pageSize) 20 ∧
    (getNewsFromCache stored page pageSize).articles.length ≤
      (min (max 1 pageSize) 20).toNat ∧
    ((getNewsFromCache stored page pageSize).pagination.hasPreviousPage = true
      ↔ 1 < max 1 page) := by
  refine ⟨rfl, rfl, ?_, ?_⟩
  · have hs : (0 : Int) ≤ (max 1 page - 1) * min (max 1 pageSize) 20 := by
      have h1 : (1 : Int) ≤ max 1 page := le_max_left 1 page
      have h2 : (0 : Int) ≤ min (max 1 pageSize) 20 := by
        have := le_max_left (1 : Int) pageSize
        omega
      exact mul_nonneg (by omega) h2
    have he : (0 : Int) ≤
        (max 1 page - 1) * min (max 1 pageSize) 20 + min (max 1 pageSize) 20 := by
      have h2 : (0 : Int) ≤ min (max 1 pageSize) 20 := by
        have := le_max_left (1 : Int) pageSize
        omega
      omega
    have hb := jsSlice_length_le stored
      ((max 1 page - 1) * min (max 1 pageSize) 20)
      ((max 1 page - 1) * min (max 1 pageSize) 20 + min (max 1 pageSize) 20)
      hs he
    simpa [getNewsFromCache, getStoredNews] using hb
  · simp [getNewsFromCache, getStoredNews]

/-! ### requestCacheService.ts — key normalization and fail-open cache -/

/-- Values a request-parameter record can hold.  `null` stands for both
JavaScript `null` and `undefined`, which `normalizeParams` treats
identically (it skips them). -/
inductive PValue where
  | str (s : String)
  | num (n : Int)
  | bool (b : Bool)
  | null
deriving DecidableEq, Repr

/-- `String.prototype.toLowerCase` restricted to its ASCII action
(`Char.toLower` lowers exactly the ASCII uppercase range). -/
def jsToLowerCase (s : String) : String :=
  String.mk (s.data.map Char.toLower)

/-- Whitespace removed by `String.prototype.trim` (ASCII part). -/
def isJsWhitespace (c : Char) : Bool :=
  c = ' ' || c = '\t' || c = '\n' || c = '\r' || c = '\x0b' || c = '\x0c'

/-- `String.prototype.trim`: strip leading and trailing whitespace. -/
def jsTrim (s : String) : String :=
  String.mk
    (((s.data.dropWhile isJsWhitespace).reverse.dropWhile isJsWhitespace).reverse)

/-- Value normalization inside `normalizeParams`: strings are
lowercased and trimmed, in the order written in the source
(`toLowerCase().trim()`); other defined values pass through. -/
def normVal : PValue → PValue
  | .str s => .str (jsTrim (jsToLowerCase s))
  | v => v

/-- Pair normalization: the key is untouched. -/
def normPair (p : String × PValue) : String × PValue :=
  (p.1, normVal p.2)

/-- Key comparison used by `Object.keys(params).sort()`. -/
def keyOrder (p q : String × PValue) : Prop :=
  p.1 ≤ q.1

instance : DecidableRel keyOrder :=
  fun p q => inferInstanceAs (Decidable (p.1 ≤ q.1))

instance : IsTotal (String × PValue) keyOrder :=
  ⟨fun p q => le_total p.1 q.1⟩

instance : IsTrans (String × PValue) keyOrder :=
  ⟨fun _ _ _ h1 h2 => le_trans h1 h2⟩

/-- Strict key comparison, used to show sorted orders are unique when
the keys are distinct. -/
def keyStrict (p q : String × PValue) : Prop :=
  p.1 < q.1

instance : IsAntisymm (String × PValue) keyStrict :=
  ⟨fun _ _ h1 h2 => absurd h2 (lt_asymm h1)⟩

/-- The skip test of `normalizeParams`: defined values only. -/
def definedVal (p : String × PValue) : Bool :=
  !(decide (p.2 = PValue.null))

/-- `normalizeParams` from `requestCacheService.ts`: iterate the keys
in sorted order, skip `undefined`/`null` values, lowercase and trim
string values.  A parameter record is modelled as an association list
in insertion order; JavaScript object keys are unique, which the
theorems assume explicitly. -/
def normalizeParams (params : List (String × PValue)) :
    List (String × PValue) :=
  ((params.insertionSort keyOrder).filter definedVal).map normPair

/-- One character of `JSON.stringify` string escaping (the characters
appearing in this development's scope: backslash and quote). -/
def jsonEscapeChar (c : Char) : List Char :=
  if c = '\\' then ['\\', '\\']
  else if c = '"' then ['\\', '"']
  else [c]

/-- `JSON.stringify` of a string value. -/
def jsonStr (s : String) : String :=
  String.mk ('"' :: s.data.flatMap jsonEscapeChar ++ ['"'])

/-- `JSON.stringify` of a parameter value. -/
def renderPValue : PValue → String
  | .str s => jsonStr s
  | .num n => toString n
  | .bool true => "true"
  | .bool false => "false"
  | .null => "null"

/-- `JSON.stringify` of the normalized parameter object (keys in the
association-list order, which `normalizeParams` has already sorted). -/
def renderPairs (l : List (String × PValue)) : String :=
  "\x7b" ++
    String.intercalate "," (l.map (fun p => jsonStr p.1 ++ ":" ++ renderPValue p.2)) ++
    "\x7d"

/-- The `keyString` of `generateCacheKey`: `JSON.stringify` of
`keyData = (endpoint, normalized params, user context or anonymous)`. -/
def generateCacheKeyString (endpoint : String)
    (params : List (String × PValue)) (userContext : Option String) : String :=
  "\x7b\"endpoint\":" ++ jsonStr endpoint ++
    ",\"params\":" ++ renderPairs (normalizeParams params) ++
    ",\"user\":" ++ jsonStr (userContext.getD "anonymous") ++ "\x7d"

/-- `generateCacheKey`: an md5 digest of the key string.  The digest
function is a parameter of the model; every deterministic digest maps
equal key strings to equal cache keys. -/
def generateCacheKey (md5 : String → String) (endpoint : String)
    (params : List (String × PValue)) (userContext : Option String) : String :=
  md5 (generateCacheKeyString endpoint params userContext)

/-- `normVal` does not change whether a value is defined. -/
theorem definedVal_normPair (p : String × PValue) :
    definedVal (normPair p) = definedVal p := by
  rcases p with ⟨k, v⟩
  cases v <;> rfl

/-- `orderedInsert` commutes with `normPair`, because the comparison
looks only at keys and `normPair` preserves keys. -/
theorem orderedInsert_map_normPair (a : String × PValue)
    (l : List (String × PValue)) :
    (l.orderedInsert keyOrder a).map normPair =
      (l.map normPair).orderedInsert keyOrder (normPair a) := by
  induction l with
  | nil => rfl
  | cons b t ih =>
    by_cases h : keyOrder a b
    · have h2 : keyOrder (normPair a) (normPair b) := h
      simp [List.orderedInsert, h, h2]
    · have h2 : ¬ keyOrder (normPair a) (normPair b) := h
      simp [List.orderedInsert, h, h2, ih]

/-- The key-sorting pass commutes with `normPair`. -/
theorem insertionSort_map_normPair (l : List (String × PValue)) :
    (l.insertionSort keyOrder).map normPair =
      (l.map normPair).insertionSort keyOrder := by
  induction l with
  | nil => rfl
  | cons a t ih =>
    simp only [List.insertionSort, List.map_cons]
    rw [orderedInsert_map_normPair, ih]

/-- Two permuted association lists with (shared) duplicate-free keys
sort to the same list: sorted orders are unique once keys are
distinct. -/
theorem insertionSort_eq_of_perm (l1 l2 : List (String × PValue))
    (hp : l1.Perm l2) (hnd : (l1.map Prod.fst).Nodup) :
    l1.insertionSort keyOrder = l2.insertionSort keyOrder := by
  have hperm : (l1.insertionSort keyOrder).Perm (l2.insertionSort keyOrder) :=
    (List.perm_insertionSort keyOrder l1).trans
      (hp.trans (List.perm_insertionSort keyOrder l2).symm)
  have hstrict : ∀ l : List (String × PValue),
      (l.map Prod.fst).Nodup →
      List.Sorted keyStrict (l.insertionSort keyOrder) := by
    intro l hl
    have hs : List.Sorted keyOrder (l.insertionSort keyOrder) :=
      List.sorted_insertionSort keyOrder l
    have hnod : ((l.insertionSort keyOrder).map Prod.fst).Nodup := by
      exact (((List.perm_insertionSort keyOrder l).map Prod.fst).nodup_iff).mpr hl
    have hne : (l.insertionSort keyOrder).Pairwise
        (fun p q => p.1 ≠ q.1) := List.pairwise_map.mp hnod
    exact (hs.and hne).imp (fun h => lt_of_le_of_ne h.1 h.2)
  have hnd2 : (l2.map Prod.fst).Nodup :=
    ((hp.map Prod.fst).nodup_iff).mp hnd
  exact List.eq_of_perm_of_sorted hperm (hstrict l1 hnd) (hstrict l2 hnd2)

/-- C8: cache lookups whose parameter records differ only in key order
and in the casing / surrounding whitespace of string values produce the
same cache key (for any digest function), hence resolve to the same
cache entry.  The relation between the two records is expressed as:
after value normalization they are permutations of each other; keys are
unique as in any JavaScript object. -/
theorem cacheKey_normalization_invariant (md5 : String → String)
    (endpoint : String) (userContext : Option String)
    (p1 p2 : List (String × PValue))
    (hperm : (p1.map normPair).Perm (p2.map normPair))
    (hnd : (p1.map Prod.fst).Nodup) :
    generateCacheKey md5 endpoint p1 userContext =
      generateCacheKey md5 endpoint p2 userContext := by
  suffices hN : normalizeParams p1 = normalizeParams p2 by
    unfold generateCacheKey generateCacheKeyString
    rw [hN]
  have hfilter : ∀ l : List (String × PValue),
      (l.filter definedVal).map normPair =
        (l.map normPair).filter definedVal := by
    intro l
    rw [List.filter_map,
      show definedVal ∘ normPair = definedVal from funext definedVal_normPair]
  have hkeys1 : (p1.map normPair).map Prod.fst = p1.map Prod.fst := by
    rw [List.map_map]; rfl
  have hnd1 : ((p1.map normPair).map Prod.fst).Nodup := by
    rw [hkeys1]; exact hnd
  calc normalizeParams p1
      = ((p1.insertionSort keyOrder).map normPair).filter definedVal := by
        unfold normalizeParams; rw [hfilter]
    _ = ((p1.map normPair).insertionSort keyOrder).filter definedVal := by
        rw [insertionSort_map_normPair]
    _ = ((p2.map normPair).insertionSort keyOrder).filter definedVal := by
        rw [insertionSort_eq_of_perm (p1.map normPair) (p2.map normPair)
          hperm hnd1]
    _ = ((p2.insertionSort keyOrder).map normPair).filter definedVal := by
        rw [insertionSort_map_normPair]
    _ = normalizeParams p2 := by
        unfold normalizeParams; rw [hfilter]

/-- Parameter record `(category: "AI", page: 1)` in that key order. -/
def wParams1 : List (String × PValue) :=
  [("category", PValue.str "AI"), ("page", PValue.num 1)]

/-- Parameter record `(page: 1, category: "ai")`: keys reordered, the
string value lowercased. -/
def wParams2 : List (String × PValue) :=
  [("page", PValue.num 1), ("category", PValue.str "ai")]

/-- Witness for `cacheKey_normalization_invariant` at the
specification's own example records. -/
theorem cacheKey_normalization_invariant_witness :
    generateCacheKey (fun s => s) "/api/v1/news" wParams1 (some "203.0.113.7") =
      generateCacheKey (fun s => s) "/api/v1/news" wParams2
        (some "203.0.113.7") :=
  cacheKey_normalization_invariant (fun s => s) "/api/v1/news"
    (some "203.0.113.7") wParams1 wParams2 (by decide) (by decide)

/-- `RequestCacheService.get`: the whole body is wrapped in
`try/catch`; the `catch` returns `null`.  An uncaught JavaScript
exception is modelled as `Except.error`; internal steps (key
generation, backing-store read) are inputs that may themselves error.
The returned `Except.ok` result shows no error escapes. -/
def rcGet {E K V : Type} (genKey : Except E K)
    (cacheGet : K → Except E (Option V)) : Except E (Option V) :=
  match genKey.bind cacheGet with
  | .ok v => .ok v
  | .error _ => .ok none

/-- `RequestCacheService.set`: same shape; the `catch` only logs, so
the call always returns normally. -/
def rcSet {E K : Type} (genKey : Except E K)
    (cacheSet : K → Except E Unit) : Except E Unit :=
  match genKey.bind cacheSet with
  | .ok _ => .ok ()
  | .error _ => .ok ()

/-- `createRequestCacheMiddleware` from `requestCacheMiddleware.ts`:
compute the key parameters and consult the cache inside `try`; serve
the cached value on a hit, fall through to the downstream handler
(`next()`) on a miss, and also fall through in the `catch` on any
error.  `handlerResponse` is the response the downstream handler
produces when the request is actually served. -/
def createRequestCacheMiddleware {E P R : Type} (prep : Except E P)
    (getFn : P → Except E (Option R)) (handlerResponse : R) : R :=
  match prep.bind getFn with
  | .ok (some cached) => cached
  | .ok none => handlerResponse
  | .error _ => handlerResponse

/-- C9: when any internal step of a cache read or write errors, no
error reaches the caller: `get` returns the absent value, `set` returns
normally, and the middleware serves the downstream handler's response
exactly as on a cache miss. -/
theorem cache_fail_open {E K V P R : Type} (genKey : Except E K)
    (cacheGet : K → Except E (Option V)) (cacheSet : K → Except E Unit)
    (prep : Except E P) (getFn : P → Except E (Option R))
    (handlerResponse : R) (eg em : E)
    (hget : genKey.bind cacheGet = Except.error eg)
    (hmid : prep.bind getFn = Except.error em) :
    rcGet genKey cacheGet = Except.ok none ∧
      rcSet genKey cacheSet = Except.ok () ∧
      createRequestCacheMiddleware prep getFn handlerResponse =
        handlerResponse := by
  refine ⟨?_, ?_, ?_⟩
  · unfold rcGet; rw [hget]
  · unfold rcSet
    cases h : genKey.bind cacheSet <;> rfl
  · unfold createRequestCacheMiddleware; rw [hmid]

/-- Witness for `cache_fail_open`: a key generator that throws. -/
theorem cache_fail_open_witness :
    rcGet (Except.error 0) (fun k : Nat => Except.ok (some k)) =
        Except.ok (none : Option Nat) ∧
      rcSet (Except.error 0) (fun _ : Nat => Except.ok ()) =
        (Except.ok () : Except Nat Unit) ∧
      createRequestCacheMiddleware (Except.error 1)
          (fun p : Nat => Except.ok (some p)) 7 = 7 :=
  cache_fail_open (Except.error 0) (fun k : Nat => Except.ok (some k))
    (fun _ : Nat => Except.ok ()) (Except.error 1)
    (fun p : Nat => Except.ok (some p)) 7 0 1 rfl rfl

/-! ### audioService.ts — `generateAudioOnDemand` -/

/-- Local audio file location for an article
(`data/audio/<articleId>.mp3`). -/
def audioFilePath (articleId : String) : String :=
  "data/audio/" ++ articleId ++ ".mp3"

/-- Environment of one `generateAudioOnDemand` call: storage mode,
result of the Supabase URL check (`none` covers both an absent URL and
a caught exception in the check), outcome of the speech-synthesis call,
and outcome of the Supabase upload (`none` covers failure and caught
exceptions; both fall back to the local path). -/
structure AudioConfig where
  useSupabase : Bool
  existingSupabaseUrl : Option String
  ttsSucceeds : Bool
  uploadResult : Option String
deriving DecidableEq, Repr

/-- Sequential embedding of `generateAudioOnDemand` from
`audioService.ts`: returns the artifact reference (`none` models the
`null` returned from the outer `catch`) together with the number of
speech-synthesis invocations performed.  The local write and the
article-record updates do not influence the returned pair (their errors
are caught and logged). -/
def generateAudioOnDemandSeq (cfg : AudioConfig) (fileExists : Bool)
    (articleId : String) : Option String × Nat :=
  if fileExists then
    if cfg.useSupabase then
      match cfg.existingSupabaseUrl with
      | some u => (some u, 0)
      | none => (some (audioFilePath articleId), 0)
    else (some (audioFilePath articleId), 0)
  else
    if cfg.ttsSucceeds then
      if cfg.useSupabase then
        match cfg.uploadResult with
        | some p => (some p, 1)
        | none => (some (audioFilePath articleId), 1)
      else (some (audioFilePath articleId), 1)
    else (none, 1)

/-- C7: when the artifact already exists in durable storage, the call
returns the existing artifact reference (the stored Supabase URL when
available in Supabase mode, otherwise the local file path) with zero
generator invocations — the durable-state check precedes any generator
call, so regeneration after a restart is a no-op. -/
theorem audio_existing_artifact_no_generation (cfg : AudioConfig)
    (articleId : String) :
    generateAudioOnDemandSeq cfg true articleId =
      (some (if cfg.useSupabase then
          cfg.existingSupabaseUrl.getD (audioFilePath articleId)
        else audioFilePath articleId), 0) := by
  unfold generateAudioOnDemandSeq
  cases hcu : cfg.useSupabase <;>
    cases hs : cfg.existingSupabaseUrl <;> simp [hcu, hs]

/-- Phases of one caller inside `generateAudioOnDemand`, at the await
points that matter for interleaving: about to run the existence check,
about to invoke the generator, about to write the file, done. -/
inductive APhase where
  | checking
  | generating
  | writing
  | finished
deriving DecidableEq, Fintype, Repr

/-- One concurrent caller: its phase and whether it has invoked the
generator. -/
structure CallerState where
  phase : APhase
  invoked : Bool
deriving DecidableEq, Fintype, Repr

/-- Shared state of two concurrent `generateAudioOnDemand` calls for
the same article in local mode: the durable file flag and both
callers. -/
structure AudioSys where
  fileExists : Bool
  c0 : CallerState
  c1 : CallerState
deriving DecidableEq, Fintype, Repr

/-- One atomic step of a caller, mirroring the source's control flow:
the `fs.existsSync` check short-circuits to `finished` when the file is
present and otherwise proceeds to the generator; the generator call
marks `invoked`; the `fs.writeFileSync` makes the file durable. -/
def stepCaller (file : Bool) (c : CallerState) : Bool × CallerState :=
  match c.phase with
  | .checking =>
    if file then (file, { c with phase := .finished })
    else (file, { c with phase := .generating })
  | .generating => (file, { phase := .writing, invoked := true })
  | .writing => (true, { c with phase := .finished })
  | .finished => (file, c)

/-- Interleaving step: `false` steps caller 0, `true` steps caller 1. -/
def step (s : AudioSys) : Bool → AudioSys
  | false =>
    let r := stepCaller s.fileExists s.c0
    { s with fileExists := r.1, c0 := r.2 }
  | true =>
    let r := stepCaller s.fileExists s.c1
    { s with fileExists := r.1, c1 := r.2 }

/-- Run a schedule (a list of caller choices). -/
def run (s : AudioSys) (sched : List Bool) : AudioSys :=
  sched.foldl step s

/-- Number of generator (speech-synthesis) invocations so far. -/
def genCount (s : AudioSys) : Nat :=
  (cond s.c0.invoked 1 0) + (cond s.c1.invoked 1 0)

/-- Both callers have returned. -/
def bothDone (s : AudioSys) : Prop :=
  s.c0.phase = APhase.finished ∧ s.c1.phase = APhase.finished

/-- Initial state for two concurrent calls with no pre-existing
artifact. -/
def audioInit : AudioSys :=
  { fileExists := false,
    c0 := { phase := APhase.checking, invoked := false },
    c1 := { phase := APhase.checking, invoked := false } }

/-- Inductive invariant of the two-caller system: the durable file only
appears after a generator invocation, a caller reaches `finished` only
by having invoked the generator or by seeing the durable file, and a
caller about to write has invoked. -/
def audioInv (s : AudioSys) : Prop :=
  (s.fileExists = true → 1 ≤ genCount s) ∧
  (s.c0.phase = APhase.finished → s.c0.invoked = true ∨ s.fileExists = true) ∧
  (s.c1.phase = APhase.finished → s.c1.invoked = true ∨ s.fileExists = true) ∧
  (s.c0.phase = APhase.writing → s.c0.invoked = true) ∧
  (s.c1.phase = APhase.writing → s.c1.invoked = true)

instance (s : AudioSys) : Decidable (audioInv s) := by
  unfold audioInv; infer_instance

instance (s : AudioSys) : Decidable (bothDone s) := by
  unfold bothDone; infer_instance

/-- C3 counterexample: `generateAudioOnDemand` holds no in-flight map,
so the claimed exactly-one-generator-invocation guarantee fails — in
the schedule where both callers pass the existence check before either
write, both invoke the generator (2 invocations, not 1). -/
theorem audio_concurrent_double_generation :
    ¬ (∀ sched : List Bool, bothDone (run audioInit sched) →
        genCount (run audioInit sched) = 1) := by
  intro h
  have h2 := h [false, true, false, true, false, true] (by decide)
  exact absurd h2 (by decide)

set_option maxRecDepth 4000 in
/-- The invariant is preserved by every step (finite state check). -/
theorem audioInv_step : ∀ s : AudioSys, ∀ b : Bool,
    audioInv s → audioInv (step s b) := by decide

/-- The invariant holds after any schedule from an invariant state. -/
theorem audioInv_run : ∀ (sched : List Bool) (s : AudioSys),
    audioInv s → audioInv (run s sched) := by
  intro sched
  induction sched with
  | nil => intro s hs; exact hs
  | cons b t ih => intro s hs; exact ih (step s b) (audioInv_step s b hs)

set_option maxRecDepth 4000 in
/-- In an invariant state where both callers are done, between 1 and 2
generator invocations happened (finite state check). -/
theorem audioInv_conclusion : ∀ s : AudioSys,
    audioInv s → bothDone s → 1 ≤ genCount s ∧ genCount s ≤ 2 := by decide

/-- C3 amended: without an in-flight map, two concurrent calls for an
entity with no pre-existing artifact invoke the generator between one
and two times — at-most-once degrades to at-most-once-per-caller, and
only callers whose existence check happens after a completed write are
coalesced. -/
theorem audio_generation_bounds (sched : List Bool)
    (h : bothDone (run audioInit sched)) :
    1 ≤ genCount (run audioInit sched) ∧
      genCount (run audioInit sched) ≤ 2 :=
  audioInv_conclusion (run audioInit sched)
    (audioInv_run sched audioInit (by decide)) h

/-- Witness for `audio_generation_bounds`: the serialized schedule
(caller 0 completes before caller 1 checks). -/
theorem audio_generation_bounds_witness :
    1 ≤ genCount (run audioInit [false, false, false, true, true, true]) ∧
      genCount (run audioInit [false, false, false, true, true, true]) ≤ 2 :=
  audio_generation_bounds [false, false, false, true, true, true] (by decide)

end AiNews
